import Mathlib

/-
Verification development for icu-le-hb's src/LayoutEngine.cpp: an adapter
that exposes the old ICU LayoutEngine API on top of the HarfBuzz shaping
engine.  The C++ code is shallowly embedded below:

  * hb_position_t (a 26.6-style fixed-point integer) is modelled as ℤ;
  * C `float` device units are modelled as exact rationals ℚ.  Every float
    operation appearing in the source is a multiplication or division by a
    power of two (scalblnf by ±8) or an addition; the claims under study
    concern the accumulation structure, not IEEE rounding, so the exact
    rational model is faithful for all in-range values;
  * le_int32 parameters are modelled as ℤ (overflow does not arise in the
    validated paths the claims are about);
  * the out/in LEErrorCode parameter is threaded explicitly;
  * caller-supplied arrays are Lean lists; a possibly-NULL pointer is an
    Option; output arrays written by an accessor are returned as a list
    (an accessor that does nothing because the incoming code is a failure
    returns none, mirroring "output buffer untouched").

The external HarfBuzz engine itself is out of scope for the repository;
the pieces of its public API the adapter calls (hb_buffer_add_utf16's
cluster assignment, buffer flags/direction/length, hb_shape's buffer
update) are modelled from HarfBuzz's documented public semantics, with
hb_shape itself instantiated for the simple one-character-to-one-glyph
font that the repository's specification uses in its own scenarios.
-/

namespace IcuLeHb

/-- Error codes of the ICU layout-engine API that this file uses.
LE_NO_ERROR is the success value; the two error values are the ones
LayoutEngine.cpp can set. -/
inductive LEErrorCode where
  | noError
  | illegalArgumentError
  | memoryAllocationError
deriving DecidableEq, Repr

/-- LE_FAILURE from LETypes.h: an error code is a failure iff it is not
the success value (warnings do not occur in this model). -/
def LE_FAILURE (c : LEErrorCode) : Bool :=
  match c with
  | .noError => false
  | _ => true

/-- Embeds `to_float` (LayoutEngine.cpp line 30): scalblnf (v, -8), the
exact division of a fixed-point value by 256 yielding device units. -/
def to_float (v : ℤ) : ℚ := (v : ℚ) / 256

/-- Truncation of a rational toward zero, the C float-to-integer
conversion applied when a float is returned as hb_position_t. -/
def ratTrunc (q : ℚ) : ℤ := Int.tdiv q.num (q.den : ℤ)

/-- Embeds `from_float` (LayoutEngine.cpp line 36): scalblnf (v, +8) —
an exact multiplication by 256 — followed by the implicit C conversion of
the float result to the integer type hb_position_t (truncation). -/
def from_float (v : ℚ) : ℤ := ratTrunc (v * 256)

/-- Embeds the LEFontInstance capability (the font-metrics provider) as a
record of the operations LayoutEngine.cpp calls on it: char-to-glyph
mapping, per-glyph advance in device units, per-glyph contour point
(None = the provider's le_bool false, i.e. point index out of range),
pixels-per-em, and per-axis scale factors. -/
structure FontInstance where
  mapCharToGlyph : ℕ → ℕ
  getGlyphAdvance : ℕ → ℚ × ℚ
  getGlyphPoint : ℕ → ℕ → Option (ℚ × ℚ)
  getXPixelsPerEm : ℤ
  getYPixelsPerEm : ℤ
  getScaleFactorX : ℚ
  getScaleFactorY : ℚ

/-- Embeds `icu_le_hb_font_get_glyph` (LayoutEngine.cpp lines 54-67).
The C function stores mapCharToGlyph(unicode) through the out pointer
`glyph` and returns `!!glyph` — a test of the POINTER, not of the stored
glyph value.  The model takes the pointer's non-nullness as the argument
`glyphPtrValid` and returns (value stored, boolean returned). -/
def icu_le_hb_font_get_glyph (fi : FontInstance) (unicode : ℕ)
    (glyphPtrValid : Bool) : ℕ × Bool :=
  (fi.mapCharToGlyph unicode, glyphPtrValid)

/-- Embeds `icu_le_hb_font_get_glyph_h_advance` (lines 69-81): the
provider's device-unit x-advance converted to fixed-point units. -/
def icu_le_hb_font_get_glyph_h_advance (fi : FontInstance) (glyph : ℕ) : ℤ :=
  from_float (fi.getGlyphAdvance glyph).1

/-- Embeds `icu_le_hb_font_get_glyph_contour_point` (lines 83-102).
The arguments x and y are the values currently stored at the out
pointers; on provider failure the function returns false without writing
them, on success it returns true with both coordinates converted to
fixed-point units. -/
def icu_le_hb_font_get_glyph_contour_point (fi : FontInstance)
    (glyph point_index : ℕ) (x y : ℤ) : Bool × ℤ × ℤ :=
  match fi.getGlyphPoint glyph point_index with
  | none => (false, x, y)
  | some p => (true, from_float p.1, from_float p.2)

/-- One entry of the engine buffer's glyph-info array: a glyph id
(codepoint-in-font) and the cluster value recording which character of
the text array fed to hb_buffer_add_utf16 it came from. -/
structure GlyphInfo where
  codepoint : ℕ
  cluster : ℕ
deriving DecidableEq, Repr

/-- One entry of the engine buffer's glyph-position array, in fixed-point
units. -/
structure GlyphPosition where
  x_advance : ℤ
  y_advance : ℤ
  x_offset : ℤ
  y_offset : ℤ
deriving DecidableEq, Repr

/-- The zero glyph position record. -/
def gpZero : GlyphPosition :=
  { x_advance := 0, y_advance := 0, x_offset := 0, y_offset := 0 }

/-- Models the hb_buffer_t state the adapter manipulates: the parallel
glyph-info and glyph-position arrays, the BOT/EOT buffer flags and the
direction.  The pre-context and post-context strings hb also stores are
not tracked: no claim under study depends on them. -/
structure HbBuffer where
  infos : List GlyphInfo
  positions : List GlyphPosition
  bot : Bool
  eot : Bool
  rtl : Bool
deriving DecidableEq

/-- The freshly created (or fully cleared) buffer. -/
def emptyBuffer : HbBuffer :=
  { infos := [], positions := [], bot := false, eot := false, rtl := false }

/-- Models hb_buffer_set_length for the uses in this file (the adapter
only ever sets the length to 0, discarding the stored glyph arrays). -/
def hb_buffer_set_length (b : HbBuffer) (n : ℕ) : HbBuffer :=
  { b with infos := b.infos.take n, positions := b.positions.take n }

/-- Models hb_buffer_add_utf16 per HarfBuzz's public semantics: the code
units text[item_offset .. item_offset+item_length) (reading at most
text_length units of `text`) are appended to the buffer, each with
cluster value equal to ITS INDEX IN THE text ARRAY PASSED TO THE CALL,
i.e. item_offset + i for the i-th appended unit.  Code units are treated
one-per-character (BMP text; no surrogate pairing), which is exact for
every input considered below.  A call with item_length = 0 only installs
pre-context and appends nothing. -/
def hb_buffer_add_utf16 (b : HbBuffer) (text : List ℕ)
    (text_length item_offset item_length : ℕ) : HbBuffer :=
  { b with
    infos := b.infos ++ (List.range item_length).map (fun i =>
      { codepoint := (text.take text_length).getD (item_offset + i) 0,
        cluster := item_offset + i }) }

/-- Modelled from the spec: hb_shape, the external shaping engine, which
is not part of this repository (spec section 1 lists it out of scope and
section 6 gives the interface: read the buffer, write back parallel
glyph-info and glyph-position arrays).  It is instantiated here for the
one-character-to-one-glyph font of the spec's own scenarios: each buffer
item becomes one glyph obtained through the char-to-glyph callback,
keeping its cluster; its x_advance comes from the h_advance callback;
y_advance and the offsets are zero. -/
def hb_shape (fi : FontInstance) (b : HbBuffer) : HbBuffer :=
  { b with
    infos := b.infos.map (fun g =>
      { codepoint := (icu_le_hb_font_get_glyph fi g.codepoint true).1,
        cluster := g.cluster }),
    positions := b.infos.map (fun g =>
      { x_advance := icu_le_hb_font_get_glyph_h_advance fi
          ((icu_le_hb_font_get_glyph fi g.codepoint true).1),
        y_advance := 0, x_offset := 0, y_offset := 0 }) }

/-- The LayoutEngine session state: the owned hb buffer, the pen origin
(x, y), the scale and ppem the constructor passed to hb_font_set_scale /
hb_font_set_ppem, and the stored typographic flags. -/
structure Session where
  buffer : HbBuffer
  x : ℚ
  y : ℚ
  scaleX : ℤ
  scaleY : ℤ
  ppemX : ℤ
  ppemY : ℤ
  fTypoFlags : ℤ
deriving DecidableEq

/-- Embeds the LayoutEngine constructor (lines 128-162) on its successful
path: a fresh empty buffer; the hb font scale set to
+from_float(xppem * scaleX) horizontally and the NEGATED vertical
equivalent; the ppem pair passed through raw.  Allocation failure of the
external engine's buffer/font objects is not modelled (the claims under
study all concern the successful construction path).  The pen-origin
fields are declared in LayoutEngine.h, which is not part of the given
sources; their initial value (0, 0) is modelled from the spec ("Pen
position is reset to (0,0) only on explicit session reset or
construction"). -/
def construct (fi : FontInstance) (typoFlags : ℤ) (success : LEErrorCode) :
    Session × LEErrorCode :=
  if LE_FAILURE success then
    ({ buffer := emptyBuffer, x := 0, y := 0, scaleX := 0, scaleY := 0,
       ppemX := 0, ppemY := 0, fTypoFlags := typoFlags }, success)
  else
    ({ buffer := emptyBuffer, x := 0, y := 0,
       scaleX := from_float ((fi.getXPixelsPerEm : ℚ) * fi.getScaleFactorX),
       scaleY := - from_float ((fi.getYPixelsPerEm : ℚ) * fi.getScaleFactorY),
       ppemX := fi.getXPixelsPerEm,
       ppemY := fi.getYPixelsPerEm,
       fTypoFlags := typoFlags }, success)

/-- Embeds LayoutEngine::layoutChars (lines 249-275).  Returns the glyph
count, the updated session and the outgoing error code.  On an incoming
failure, or on invalid arguments (chars NULL, any of offset/count/max
negative, offset >= max, offset + count > max) the session is returned
untouched with 0 glyphs; otherwise the pen origin is stored, the buffer
direction, length-0 reset, BOT/EOT flags and the two hb_buffer_add_utf16
passes are applied exactly as in the source, and hb_shape is invoked. -/
def layoutChars (fi : FontInstance) (s : Session) (chars : Option (List ℕ))
    (offset count max : ℤ) (rightToLeft : Bool) (x y : ℚ)
    (success : LEErrorCode) : ℤ × Session × LEErrorCode :=
  if LE_FAILURE success then
    (0, s, success)
  else if chars = none ∨ offset < 0 ∨ count < 0 ∨ max < 0 ∨ offset ≥ max ∨
      offset + count > max then
    (0, s, LEErrorCode.illegalArgumentError)
  else
    let cs := chars.getD []
    let b1 := { s.buffer with rtl := rightToLeft }
    let b2 := hb_buffer_set_length b1 0
    let b3 := { b2 with bot := decide (offset = 0),
                        eot := decide (offset + count = max) }
    let b4 := hb_buffer_add_utf16 b3 cs max.toNat offset.toNat 0
    let b5 := hb_buffer_add_utf16 b4 (cs.drop offset.toNat)
                (max - offset).toNat 0 count.toNat
    let b6 := hb_shape fi b5
    ((b6.infos.length : ℤ), { s with buffer := b6, x := x, y := y }, success)

/-- Embeds LayoutEngine::reset (lines 277-281): buffer length to 0 and
pen origin to (0, 0). -/
def reset (s : Session) : Session :=
  { s with buffer := hb_buffer_set_length s.buffer 0, x := 0, y := 0 }

/-- Embeds LayoutEngine::getGlyphCount (lines 170-173). -/
def getGlyphCount (s : Session) : ℤ := (s.buffer.infos.length : ℤ)

/-- Embeds the indexBase overload of getCharIndices (lines 175-182):
writes cluster + indexBase for each glyph, or nothing on failure. -/
def getCharIndicesWithBase (s : Session) (indexBase : ℤ)
    (success : LEErrorCode) : Option (List ℤ) :=
  if LE_FAILURE success then none
  else some (s.buffer.infos.map (fun g => (g.cluster : ℤ) + indexBase))

/-- Embeds the base-0 overload of getCharIndices (lines 184-191): writes
the raw cluster of each glyph, or nothing on failure. -/
def getCharIndices (s : Session) (success : LEErrorCode) : Option (List ℤ) :=
  if LE_FAILURE success then none
  else some (s.buffer.infos.map (fun g => (g.cluster : ℤ)))

/-- The loop of getGlyphPositions (lines 218-227): starting from pen
(x, y), emit pen-plus-offset for each glyph, advance the pen, and emit
the final pen as the trailing pair. -/
def positionsLoop : ℚ → ℚ → List GlyphPosition → List ℚ
  | x, y, [] => [x, y]
  | x, y, p :: ps =>
      (x + to_float p.x_offset) :: (y + to_float p.y_offset) ::
        positionsLoop (x + to_float p.x_advance) (y + to_float p.y_advance) ps

/-- Embeds LayoutEngine::getGlyphPositions (lines 213-228): the list of
2*count + 2 floats written into the caller's array, or none on an
incoming failure (array untouched). -/
def getGlyphPositions (s : Session) (success : LEErrorCode) :
    Option (List ℚ) :=
  if LE_FAILURE success then none
  else some (positionsLoop s.x s.y s.buffer.positions)

/-- The advance-summing loop of getGlyphPosition (lines 238-241). -/
def advanceLoop : ℚ → ℚ → List GlyphPosition → ℚ × ℚ
  | x, y, [] => (x, y)
  | x, y, p :: ps =>
      advanceLoop (x + to_float p.x_advance) (y + to_float p.y_advance) ps

/-- Embeds LayoutEngine::getGlyphPosition (lines 230-244): sum the
advances of the glyphs before glyphIndex starting at the stored origin,
then add glyph glyphIndex's own offset.  The C code indexes pos
[glyphIndex] without a bounds check; the model reads it with gpZero as
the (never reached, given the claims' bounds hypotheses) default. -/
def getGlyphPosition (s : Session) (glyphIndex : ℕ)
    (success : LEErrorCode) : Option (ℚ × ℚ) :=
  if LE_FAILURE success then none
  else
    let pos := s.buffer.positions
    let xy := advanceLoop s.x s.y (pos.take glyphIndex)
    let p := pos.getD glyphIndex gpZero
    some (xy.1 + to_float p.x_offset, xy.2 + to_float p.y_offset)

/-- A concrete font-metrics provider used by the witnesses and the
counterexample below: identity character-to-glyph map, constant advance
of one device unit, and a single contour point (3/2, -5/4) at point
index 0 of glyph 7. -/
def idFont : FontInstance :=
  { mapCharToGlyph := fun c => c,
    getGlyphAdvance := fun _ => (1, 0),
    getGlyphPoint := fun g i =>
      if g = 7 ∧ i = 0 then some (3/2, -5/4) else none,
    getXPixelsPerEm := 12,
    getYPixelsPerEm := 12,
    getScaleFactorX := 1,
    getScaleFactorY := 1 }

/-- The session obtained by constructing a LayoutEngine over idFont with
the default typographic flags. -/
def s0 : Session := (construct idFont 3 LEErrorCode.noError).1

/-- The five UTF-16 code units of "Hello", the context used by the
specification's own scenarios. -/
def helloChars : List ℕ := [72, 101, 108, 108, 111]

/-- A concrete session state as left by a successful shape call: two
glyphs with parallel position records (advances 256 and 256/256
fixed-point units on x/y, offsets 128, 0 and 0, 64), pen origin (0, 0).
Used by the positioning witnesses. -/
def wSession : Session :=
  { buffer :=
    { infos := [{ codepoint := 5, cluster := 0 }, { codepoint := 6, cluster := 1 }],
      positions :=
        [{ x_advance := 256, y_advance := 0, x_offset := 128, y_offset := 0 },
         { x_advance := 256, y_advance := 256, x_offset := 0, y_offset := 64 }],
      bot := true, eot := true, rtl := false },
    x := 0, y := 0, scaleX := 3072, scaleY := -3072,
    ppemX := 12, ppemY := 12, fTypoFlags := 3 }

/- Helper lemmas (shared; none of them is a claim's artifact). -/

lemma ratTrunc_intCast (n : ℤ) : ratTrunc ((n : ℤ) : ℚ) = n := by
  simp [ratTrunc]

lemma from_float_eval (q : ℚ) (n : ℤ) (h : q * 256 = ((n : ℤ) : ℚ)) :
    from_float q = n := by
  rw [from_float, h, ratTrunc_intCast]

lemma positionsLoop_length (l : List GlyphPosition) : ∀ (x y : ℚ),
    (positionsLoop x y l).length = 2 * l.length + 2 := by
  induction l with
  | nil => intro x y; rfl
  | cons p ps ih =>
      intro x y
      simp only [positionsLoop, List.length_cons, ih]
      ring

lemma positionsLoop_getD_even (l : List GlyphPosition) : ∀ (x y : ℚ)
    (i : ℕ), i < l.length →
    (positionsLoop x y l).getD (2 * i) 0
      = x + ((l.take i).map (fun p => to_float p.x_advance)).sum
        + to_float ((l.getD i gpZero).x_offset) := by
  induction l with
  | nil => intro x y i hi; simp at hi
  | cons p ps ih =>
      intro x y i hi
      cases i with
      | zero => simp [positionsLoop]
      | succ j =>
          have h2 : 2 * (j + 1) = 2 * j + 1 + 1 := by ring
          rw [h2]
          simp only [positionsLoop, List.getD_cons_succ]
          rw [ih _ _ j (by simpa using hi)]
          simp only [List.take_succ_cons, List.map_cons, List.sum_cons,
            List.getD_cons_succ]
          ring

lemma positionsLoop_getD_odd (l : List GlyphPosition) : ∀ (x y : ℚ)
    (i : ℕ), i < l.length →
    (positionsLoop x y l).getD (2 * i + 1) 0
      = y + ((l.take i).map (fun p => to_float p.y_advance)).sum
        + to_float ((l.getD i gpZero).y_offset) := by
  induction l with
  | nil => intro x y i hi; simp at hi
  | cons p ps ih =>
      intro x y i hi
      cases i with
      | zero => simp [positionsLoop]
      | succ j =>
          have h2 : 2 * (j + 1) + 1 = 2 * j + 1 + 1 + 1 := by ring
          rw [h2]
          simp only [positionsLoop, List.getD_cons_succ]
          rw [ih _ _ j (by simpa using hi)]
          simp only [List.take_succ_cons, List.map_cons, List.sum_cons,
            List.getD_cons_succ]
          ring

lemma positionsLoop_getD_final_x (l : List GlyphPosition) : ∀ (x y : ℚ),
    (positionsLoop x y l).getD (2 * l.length) 0
      = x + (l.map (fun p => to_float p.x_advance)).sum := by
  induction l with
  | nil => intro x y; simp [positionsLoop]
  | cons p ps ih =>
      intro x y
      have h2 : 2 * (p :: ps).length = 2 * ps.length + 1 + 1 := by
        simp [List.length_cons]; ring
      rw [h2]
      simp only [positionsLoop, List.getD_cons_succ]
      rw [ih]
      simp only [List.map_cons, List.sum_cons]
      ring

lemma positionsLoop_getD_final_y (l : List GlyphPosition) : ∀ (x y : ℚ),
    (positionsLoop x y l).getD (2 * l.length + 1) 0
      = y + (l.map (fun p => to_float p.y_advance)).sum := by
  induction l with
  | nil => intro x y; simp [positionsLoop]
  | cons p ps ih =>
      intro x y
      have h2 : 2 * (p :: ps).length + 1 = 2 * ps.length + 1 + 1 + 1 := by
        simp [List.length_cons]; ring
      rw [h2]
      simp only [positionsLoop, List.getD_cons_succ]
      rw [ih]
      simp only [List.map_cons, List.sum_cons]
      ring

lemma advanceLoop_eq (l : List GlyphPosition) : ∀ (x y : ℚ),
    advanceLoop x y l
      = (x + (l.map (fun p => to_float p.x_advance)).sum,
         y + (l.map (fun p => to_float p.y_advance)).sum) := by
  induction l with
  | nil => intro x y; simp [advanceLoop]
  | cons p ps ih =>
      intro x y
      simp only [advanceLoop]
      rw [ih]
      simp only [List.map_cons, List.sum_cons, Prod.mk.injEq]
      constructor <;> ring

lemma getD_map_range {α : Type} (f : ℕ → α) (n i : ℕ) (d : α)
    (h : i < n) : ((List.range n).map f).getD i d = f i := by
  rw [List.getD_eq_getElem?_getD, List.getElem?_map, List.getElem?_range h]
  rfl

lemma layoutChars_valid_infos (fi : FontInstance) (s : Session)
    (chars : List ℕ) (offset count max : ℤ) (rightToLeft : Bool) (x y : ℚ)
    (h : ¬(some chars = none ∨ offset < 0 ∨ count < 0 ∨ max < 0 ∨
      offset ≥ max ∨ offset + count > max)) :
    (layoutChars fi s (some chars) offset count max rightToLeft x y
        LEErrorCode.noError).2.1.buffer.infos
      = (List.range count.toNat).map (fun i =>
          { codepoint := fi.mapCharToGlyph
              (((chars.drop offset.toNat).take (max - offset).toNat).getD i 0),
            cluster := i }) := by
  unfold layoutChars
  rw [if_neg (by decide), if_neg h]
  simp [hb_shape, hb_buffer_add_utf16, hb_buffer_set_length,
    icu_le_hb_font_get_glyph, List.map_map, Function.comp]

lemma layoutChars_valid_parallel (fi : FontInstance) (s : Session)
    (chars : List ℕ) (offset count max : ℤ) (rightToLeft : Bool) (x y : ℚ)
    (h : ¬(some chars = none ∨ offset < 0 ∨ count < 0 ∨ max < 0 ∨
      offset ≥ max ∨ offset + count > max)) :
    (layoutChars fi s (some chars) offset count max rightToLeft x y
        LEErrorCode.noError).2.1.buffer.positions.length
      = (layoutChars fi s (some chars) offset count max rightToLeft x y
          LEErrorCode.noError).2.1.buffer.infos.length ∧
    (layoutChars fi s (some chars) offset count max rightToLeft x y
        LEErrorCode.noError).1
      = ((layoutChars fi s (some chars) offset count max rightToLeft x y
          LEErrorCode.noError).2.1.buffer.infos.length : ℤ) := by
  unfold layoutChars
  rw [if_neg (by decide), if_neg h]
  simp [hb_shape, hb_buffer_add_utf16, hb_buffer_set_length]

end IcuLeHb

namespace IcuLeHb

/-- C7: converting a fixed-point value to device units and back yields
it exactly (in particular within one unit of the 256-step quantization);
the device-unit direction is exactly division by 256, and on values
representable in both spaces the fixed-point direction is exactly
multiplication by 256. -/
theorem roundtrip_fixed_device (v : ℤ) :
    from_float (to_float v) = v ∧
    to_float v = (v : ℚ) / 256 ∧
    from_float ((v : ℤ) : ℚ) = v * 256 := by
  refine ⟨?_, rfl, ?_⟩
  · have h : to_float v * 256 = ((v : ℤ) : ℚ) := by
      rw [to_float]
      field_simp
    rw [from_float, h, ratTrunc_intCast]
  · refine from_float_eval _ _ ?_
    push_cast
    ring

/-- C10: the char-to-glyph bridge callback stores the provider's mapped
glyph id and returns true unconditionally — also when the mapping is
glyph 0 ("no glyph") — because the C return value !!glyph tests the out
POINTER (always non-null when hb invokes the callback), not the stored
glyph value. -/
theorem get_glyph_returns_true (fi : FontInstance) (unicode : ℕ) :
    icu_le_hb_font_get_glyph fi unicode true
      = (fi.mapCharToGlyph unicode, true) := rfl

/-- C9: the glyph-contour-point bridge returns true together with the
point converted to fixed-point units when the provider succeeds, and
returns false leaving the out locations unwritten (their previous
values x, y) when the provider reports the index out of range. -/
theorem contour_point_no_fabrication (fi : FontInstance)
    (glyph point_index : ℕ) (x y : ℤ) :
    (fi.getGlyphPoint glyph point_index = none →
      icu_le_hb_font_get_glyph_contour_point fi glyph point_index x y
        = (false, x, y)) ∧
    ∀ p : ℚ × ℚ, fi.getGlyphPoint glyph point_index = some p →
      icu_le_hb_font_get_glyph_contour_point fi glyph point_index x y
        = (true, from_float p.1, from_float p.2) := by
  constructor
  · intro h
    simp [icu_le_hb_font_get_glyph_contour_point, h]
  · intro p h
    simp [icu_le_hb_font_get_glyph_contour_point, h]

/-- Witness for C9 at idFont: point 0 of glyph 7 exists and comes back
as (384, -320) fixed-point units; point 1 does not and the out locations
keep their previous values (11, 22). -/
theorem contour_point_no_fabrication_witness :
    icu_le_hb_font_get_glyph_contour_point idFont 7 0 11 22
      = (true, 384, -320) ∧
    icu_le_hb_font_get_glyph_contour_point idFont 7 1 11 22
      = (false, 11, 22) := by
  constructor
  · rw [(contour_point_no_fabrication idFont 7 0 11 22).2 (3/2, -5/4)
      (by simp [idFont])]
    rw [from_float_eval (3/2 : ℚ) 384 (by norm_num),
        from_float_eval (-5/4 : ℚ) (-320) (by norm_num)]
  · exact (contour_point_no_fabrication idFont 7 1 11 22).1
      (by simp [idFont])

/-- C8: on a successful construction the horizontal scale passed to the
engine is +from_float(ppemX * scaleFactorX), the vertical scale is the
negation of from_float(ppemY * scaleFactorY), and the ppem pair passed
is the provider's raw pixels-per-em values. -/
theorem construct_scale_ppem (fi : FontInstance) (typoFlags : ℤ)
    (success : LEErrorCode) (h : LE_FAILURE success = false) :
    (construct fi typoFlags success).1.scaleX
      = from_float ((fi.getXPixelsPerEm : ℚ) * fi.getScaleFactorX) ∧
    (construct fi typoFlags success).1.scaleY
      = - from_float ((fi.getYPixelsPerEm : ℚ) * fi.getScaleFactorY) ∧
    (construct fi typoFlags success).1.ppemX = fi.getXPixelsPerEm ∧
    (construct fi typoFlags success).1.ppemY = fi.getYPixelsPerEm := by
  simp [construct, h]

/-- Witness for C8 at idFont (ppem 12, scale factors 1): scale
(+3072, -3072), ppem (12, 12). -/
theorem construct_scale_ppem_witness :
    (construct idFont 3 LEErrorCode.noError).1.scaleX = 3072 ∧
    (construct idFont 3 LEErrorCode.noError).1.scaleY = -3072 ∧
    (construct idFont 3 LEErrorCode.noError).1.ppemX = 12 ∧
    (construct idFont 3 LEErrorCode.noError).1.ppemY = 12 := by
  obtain ⟨h1, h2, h3, h4⟩ :=
    construct_scale_ppem idFont 3 LEErrorCode.noError rfl
  refine ⟨?_, ?_, h3, h4⟩
  · rw [h1]
    exact from_float_eval _ _ (by norm_num [idFont])
  · rw [h2, from_float_eval ((idFont.getYPixelsPerEm : ℚ)
      * idFont.getScaleFactorY) 3072 (by norm_num [idFont])]

/-- C2: a shape call entered with a success status but a NULL context,
a negative subrangeOffset, subrangeCount or contextLength, or
subrangeOffset >= contextLength, or subrangeOffset + subrangeCount >
contextLength sets the IllegalArgument code, returns 0 glyphs and leaves
the stored session state (buffer contents and pen origin) unchanged. -/
theorem layoutChars_invalid_rejected (fi : FontInstance) (s : Session)
    (chars : Option (List ℕ)) (offset count max : ℤ) (rightToLeft : Bool)
    (x y : ℚ) (success : LEErrorCode) (hsucc : LE_FAILURE success = false)
    (h : chars = none ∨ offset < 0 ∨ count < 0 ∨ max < 0 ∨ offset ≥ max ∨
      offset + count > max) :
    layoutChars fi s chars offset count max rightToLeft x y success
      = (0, s, LEErrorCode.illegalArgumentError) := by
  unfold layoutChars
  rw [if_neg (by simp [hsucc]), if_pos h]

/-- Witness for C2: offset 2, count 9 over contextLength 5 is rejected
with IllegalArgument, 0 glyphs, and the session untouched. -/
theorem layoutChars_invalid_rejected_witness :
    layoutChars idFont s0 (some helloChars) 2 9 5 false 0 0
        LEErrorCode.noError
      = (0, s0, LEErrorCode.illegalArgumentError) :=
  layoutChars_invalid_rejected idFont s0 (some helloChars) 2 9 5 false
    0 0 LEErrorCode.noError rfl (by decide)

/-- C3: the pen origin is (0, 0) right after construction and right
after every reset; every valid shape call stores the caller-supplied
origin; a shape call entered with a failed status leaves the session —
pen origin included — unchanged.  (The extraction accessors are pure
functions of the session and return no session, so they cannot change
the pen.)  The constructor's pen initialisation lives in LayoutEngine.h,
which is not among the given sources, and is modelled from the spec. -/
theorem pen_origin_lifecycle (fi : FontInstance) (typoFlags : ℤ)
    (s : Session) (chars : List ℕ) (offset count max : ℤ)
    (rightToLeft : Bool) (ox oy : ℚ)
    (h : ¬(some chars = none ∨ offset < 0 ∨ count < 0 ∨ max < 0 ∨
      offset ≥ max ∨ offset + count > max)) :
    (construct fi typoFlags LEErrorCode.noError).1.x = 0 ∧
    (construct fi typoFlags LEErrorCode.noError).1.y = 0 ∧
    (reset s).x = 0 ∧
    (reset s).y = 0 ∧
    (layoutChars fi s (some chars) offset count max rightToLeft ox oy
        LEErrorCode.noError).2.1.x = ox ∧
    (layoutChars fi s (some chars) offset count max rightToLeft ox oy
        LEErrorCode.noError).2.1.y = oy ∧
    ∀ success, LE_FAILURE success = true →
      (layoutChars fi s (some chars) offset count max rightToLeft ox oy
          success).2.1 = s := by
  refine ⟨rfl, rfl, rfl, rfl, ?_, ?_, ?_⟩
  · unfold layoutChars
    rw [if_neg (by decide), if_neg h]
  · unfold layoutChars
    rw [if_neg (by decide), if_neg h]
  · intro success hs
    unfold layoutChars
    rw [if_pos hs]

/-- Witness for C3: constructing over idFont and shaping all of "Hello"
from origin (7, -2). -/
theorem pen_origin_lifecycle_witness :
    (construct idFont 3 LEErrorCode.noError).1.x = 0 ∧
    (construct idFont 3 LEErrorCode.noError).1.y = 0 ∧
    (reset s0).x = 0 ∧
    (reset s0).y = 0 ∧
    (layoutChars idFont s0 (some helloChars) 0 5 5 false 7 (-2)
        LEErrorCode.noError).2.1.x = 7 ∧
    (layoutChars idFont s0 (some helloChars) 0 5 5 false 7 (-2)
        LEErrorCode.noError).2.1.y = -2 ∧
    ∀ success, LE_FAILURE success = true →
      (layoutChars idFont s0 (some helloChars) 0 5 5 false 7 (-2)
          success).2.1 = s0 :=
  pen_origin_lifecycle idFont 3 s0 helloChars 0 5 5 false 7 (-2) (by decide)

/-- C6: every valid shape call sets the buffer's beginning-of-text flag
iff subrangeOffset = 0 and its end-of-text flag iff subrangeOffset +
subrangeCount = contextLength. -/
theorem boundary_flags (fi : FontInstance) (s : Session) (chars : List ℕ)
    (offset count max : ℤ) (rightToLeft : Bool) (x y : ℚ)
    (h : ¬(some chars = none ∨ offset < 0 ∨ count < 0 ∨ max < 0 ∨
      offset ≥ max ∨ offset + count > max)) :
    ((layoutChars fi s (some chars) offset count max rightToLeft x y
        LEErrorCode.noError).2.1.buffer.bot = true ↔ offset = 0) ∧
    ((layoutChars fi s (some chars) offset count max rightToLeft x y
        LEErrorCode.noError).2.1.buffer.eot = true
      ↔ offset + count = max) := by
  unfold layoutChars
  rw [if_neg (by decide), if_neg h]
  constructor
  · simp [hb_shape, hb_buffer_add_utf16, hb_buffer_set_length]
  · simp [hb_shape, hb_buffer_add_utf16, hb_buffer_set_length]

/-- Witness for C6: the middle subrange [1, 4) of the 5-character
context sets neither flag (1 is not 0 and 1 + 3 is not 5). -/
theorem boundary_flags_witness :
    ((layoutChars idFont s0 (some helloChars) 1 3 5 false 0 0
        LEErrorCode.noError).2.1.buffer.bot = true ↔ (1 : ℤ) = 0) ∧
    ((layoutChars idFont s0 (some helloChars) 1 3 5 false 0 0
        LEErrorCode.noError).2.1.buffer.eot = true ↔ (1 : ℤ) + 3 = 5) :=
  boundary_flags idFont s0 helloChars 1 3 5 false 0 0 (by decide)

/-- Counterexample to C1: shaping the middle subrange [1, 4) ("ell") of
the 5-character context "Hello" yields base-0 charIndices [0, 1, 2] —
renumbered relative to the subrange start — not the absolute indices
[1, 2, 3] the claim requires; in particular the value 0 lies outside
[subrangeOffset, subrangeOffset + subrangeCount) = [1, 1 + 3). -/
theorem cluster_absolute_counterexample :
    getCharIndices (layoutChars idFont s0 (some helloChars) 1 3 5 false 0 0
        LEErrorCode.noError).2.1 LEErrorCode.noError = some [0, 1, 2] ∧
    ¬(∀ v ∈ [(0 : ℤ), 1, 2], 1 ≤ v ∧ v < 1 + 3) := by
  constructor
  · decide
  · decide

/-- C1 amended: the cluster values of a valid shape call are RELATIVE to
the subrange start, not absolute — the code passes chars + offset as the
text base of the second hb_buffer_add_utf16 pass, so glyph i carries
cluster i.  The base-0 charIndices output is [0, ..., subrangeCount-1],
every value lies in [0, subrangeCount), and glyph i originates from the
character at absolute index subrangeOffset + i of the original context
(its glyph id is the cmap image of chars[subrangeOffset + i]). -/
theorem cluster_values_subrange_relative (fi : FontInstance) (s : Session)
    (chars : List ℕ) (offset count max : ℤ) (rightToLeft : Bool) (x y : ℚ)
    (h : ¬(some chars = none ∨ offset < 0 ∨ count < 0 ∨ max < 0 ∨
      offset ≥ max ∨ offset + count > max)) :
    getCharIndices (layoutChars fi s (some chars) offset count max
        rightToLeft x y LEErrorCode.noError).2.1 LEErrorCode.noError
      = some ((List.range count.toNat).map (fun i : ℕ => (i : ℤ))) ∧
    (∀ v ∈ (List.range count.toNat).map (fun i : ℕ => (i : ℤ)),
      0 ≤ v ∧ v < count) ∧
    ∀ i : ℕ, i < count.toNat →
      ((layoutChars fi s (some chars) offset count max rightToLeft x y
          LEErrorCode.noError).2.1.buffer.infos.getD i
          { codepoint := 0, cluster := 0 }).codepoint
        = fi.mapCharToGlyph (chars.getD (offset.toNat + i) 0) := by
  refine ⟨?_, ?_, ?_⟩
  · unfold getCharIndices
    rw [if_neg (by decide),
      layoutChars_valid_infos fi s chars offset count max rightToLeft x y h,
      List.map_map]
    rfl
  · intro v hv
    simp only [List.mem_map] at hv
    obtain ⟨i, hi, rfl⟩ := hv
    have hi2 : i < count.toNat := by simpa using hi
    push_neg at h
    obtain ⟨-, h2, h3, h4, h5, h6⟩ := h
    omega
  · intro i hi
    rw [layoutChars_valid_infos fi s chars offset count max rightToLeft x y h,
      getD_map_range _ _ _ _ hi]
    have hm : i < (max - offset).toNat := by
      push_neg at h
      obtain ⟨-, h2, h3, h4, h5, h6⟩ := h
      omega
    rw [List.getD_eq_getElem?_getD, List.getElem?_take, if_pos hm,
      List.getElem?_drop, ← List.getD_eq_getElem?_getD]

/-- Witness for the amended C1 at the spec's own scenario: subrange
[1, 4) of "Hello" gives charIndices [0, 1, 2], all in [0, 3), with glyph
i mapped from the character at absolute index 1 + i. -/
theorem cluster_values_subrange_relative_witness :
    getCharIndices (layoutChars idFont s0 (some helloChars) 1 3 5 false 0 0
        LEErrorCode.noError).2.1 LEErrorCode.noError
      = some ((List.range (3 : ℤ).toNat).map (fun i : ℕ => (i : ℤ))) ∧
    (∀ v ∈ (List.range (3 : ℤ).toNat).map (fun i : ℕ => (i : ℤ)),
      0 ≤ v ∧ v < 3) ∧
    ∀ i : ℕ, i < (3 : ℤ).toNat →
      ((layoutChars idFont s0 (some helloChars) 1 3 5 false 0 0
          LEErrorCode.noError).2.1.buffer.infos.getD i
          { codepoint := 0, cluster := 0 }).codepoint
        = idFont.mapCharToGlyph (helloChars.getD ((1 : ℤ).toNat + i) 0) :=
  cluster_values_subrange_relative idFont s0 helloChars 1 3 5 false 0 0
    (by decide)

/-- C4: with a non-failed code, getGlyphPositions on a session whose
glyph-info and glyph-position arrays are parallel — the invariant every
successful shape call establishes, see layoutChars_valid_parallel —
writes exactly 2n+2 floats for n glyphs: entry 2i (resp. 2i+1) is the
running pen x (resp. y), i.e. the stored origin plus the advances of the
glyphs before i, plus glyph i's own offset in device units; the trailing
pair is the final pen position, the sum of all advances from the
origin. -/
theorem getGlyphPositions_spec (s : Session) (success : LEErrorCode)
    (hsucc : LE_FAILURE success = false)
    (hpar : s.buffer.positions.length = s.buffer.infos.length) :
    ∃ out : List ℚ, getGlyphPositions s success = some out ∧
      out.length = 2 * s.buffer.infos.length + 2 ∧
      (∀ i, i < s.buffer.infos.length →
        out.getD (2 * i) 0
          = s.x + ((s.buffer.positions.take i).map
                (fun p => to_float p.x_advance)).sum
              + to_float ((s.buffer.positions.getD i gpZero).x_offset) ∧
        out.getD (2 * i + 1) 0
          = s.y + ((s.buffer.positions.take i).map
                (fun p => to_float p.y_advance)).sum
              + to_float ((s.buffer.positions.getD i gpZero).y_offset)) ∧
      out.getD (2 * s.buffer.infos.length) 0
        = s.x + (s.buffer.positions.map (fun p => to_float p.x_advance)).sum ∧
      out.getD (2 * s.buffer.infos.length + 1) 0
        = s.y + (s.buffer.positions.map (fun p => to_float p.y_advance)).sum := by
  refine ⟨positionsLoop s.x s.y s.buffer.positions, ?_, ?_, ?_, ?_, ?_⟩
  · unfold getGlyphPositions
    rw [if_neg (by simp [hsucc])]
  · rw [positionsLoop_length _ s.x s.y, hpar]
  · intro i hi
    rw [← hpar] at hi
    exact ⟨positionsLoop_getD_even _ s.x s.y i hi,
           positionsLoop_getD_odd _ s.x s.y i hi⟩
  · rw [← hpar, positionsLoop_getD_final_x]
  · rw [← hpar, positionsLoop_getD_final_y]

/-- Witness for C4 at a concrete two-glyph session (origin (0, 0),
advances 1 and (1, 1) device units, offsets (1/2, 0) and (0, 1/4)): the
six floats written are [1/2, 0, 1, 1/4, 2, 1]. -/
theorem getGlyphPositions_spec_witness :
    (∃ out : List ℚ, getGlyphPositions wSession LEErrorCode.noError = some out ∧
      out.length = 2 * wSession.buffer.infos.length + 2 ∧
      (∀ i, i < wSession.buffer.infos.length →
        out.getD (2 * i) 0
          = wSession.x + ((wSession.buffer.positions.take i).map
                (fun p => to_float p.x_advance)).sum
              + to_float ((wSession.buffer.positions.getD i gpZero).x_offset) ∧
        out.getD (2 * i + 1) 0
          = wSession.y + ((wSession.buffer.positions.take i).map
                (fun p => to_float p.y_advance)).sum
              + to_float ((wSession.buffer.positions.getD i gpZero).y_offset)) ∧
      out.getD (2 * wSession.buffer.infos.length) 0
        = wSession.x + (wSession.buffer.positions.map
            (fun p => to_float p.x_advance)).sum ∧
      out.getD (2 * wSession.buffer.infos.length + 1) 0
        = wSession.y + (wSession.buffer.positions.map
            (fun p => to_float p.y_advance)).sum) ∧
    getGlyphPositions wSession LEErrorCode.noError
      = some [1/2, 0, 1, 1/4, 2, 1] := by
  constructor
  · exact getGlyphPositions_spec wSession LEErrorCode.noError rfl rfl
  · unfold getGlyphPositions
    rw [if_neg (by decide)]
    norm_num [wSession, positionsLoop, to_float]

/-- C5: for every glyph index i in range, the single-glyph query returns
exactly the pair at entries 2i, 2i+1 of the full positions array, and
both equal the origin plus the advances of the glyphs before i plus
glyph i's own offset. -/
theorem getGlyphPosition_single_matches (s : Session)
    (success : LEErrorCode) (hsucc : LE_FAILURE success = false)
    (hpar : s.buffer.positions.length = s.buffer.infos.length)
    (i : ℕ) (hi : i < s.buffer.infos.length) :
    ∃ out : List ℚ, getGlyphPositions s success = some out ∧
      getGlyphPosition s i success
        = some (out.getD (2 * i) 0, out.getD (2 * i + 1) 0) ∧
      getGlyphPosition s i success
        = some (s.x + ((s.buffer.positions.take i).map
              (fun p => to_float p.x_advance)).sum
            + to_float ((s.buffer.positions.getD i gpZero).x_offset),
          s.y + ((s.buffer.positions.take i).map
              (fun p => to_float p.y_advance)).sum
            + to_float ((s.buffer.positions.getD i gpZero).y_offset)) := by
  have hi2 : i < s.buffer.positions.length := by rw [hpar]; exact hi
  refine ⟨positionsLoop s.x s.y s.buffer.positions, ?_, ?_, ?_⟩
  · unfold getGlyphPositions
    rw [if_neg (by simp [hsucc])]
  · unfold getGlyphPosition
    rw [if_neg (by simp [hsucc])]
    rw [positionsLoop_getD_even _ s.x s.y i hi2,
        positionsLoop_getD_odd _ s.x s.y i hi2]
    simp only [advanceLoop_eq]
  · unfold getGlyphPosition
    rw [if_neg (by simp [hsucc])]
    simp only [advanceLoop_eq]

/-- Witness for C5 at the same two-glyph session, glyph index 1: the
single-glyph query returns (1, 1/4), matching entries 2 and 3 of the
positions array. -/
theorem getGlyphPosition_single_matches_witness :
    ∃ out : List ℚ, getGlyphPositions wSession LEErrorCode.noError = some out ∧
      getGlyphPosition wSession 1 LEErrorCode.noError
        = some (out.getD (2 * 1) 0, out.getD (2 * 1 + 1) 0) ∧
      getGlyphPosition wSession 1 LEErrorCode.noError
        = some (wSession.x + ((wSession.buffer.positions.take 1).map
              (fun p => to_float p.x_advance)).sum
            + to_float ((wSession.buffer.positions.getD 1 gpZero).x_offset),
          wSession.y + ((wSession.buffer.positions.take 1).map
              (fun p => to_float p.y_advance)).sum
            + to_float ((wSession.buffer.positions.getD 1 gpZero).y_offset)) :=
  getGlyphPosition_single_matches wSession LEErrorCode.noError rfl rfl 1
    (by decide)

end IcuLeHb
